import Mathlib

/-!
Shallow embedding of the tagged Vulkan host-memory allocator adapter in
src/2025/crowbar/src/render/alloc.rs.

Modelling conventions:
- Target is x86_64 with debug_assertions on (the build the repository's own
  tests exercise), so the MemoryTag struct carries the magic field:
  size_of::<MemoryTag>() = 40, align_of::<MemoryTag>() = 8 (repr(align(8))).
- usize/pointers are Nat, reduced mod 2^64 exactly where the Rust code can
  wrap (atomic fetch_add/fetch_sub, byte_offset with a negative offset).
- The underlying Allocator is a parameter: allocate is a function from the
  requested Layout to an optional base address, grow/shrink take the base
  pointer and the old and new layouts; none models allocation failure.
- Host memory, as far as the adapter reads it, is a partial map from
  addresses to MemoryTag values; reading an address holding no tag is
  undefined behaviour and is modelled as a crash outcome.
-/

namespace Crowbar

/-- usize arithmetic wraps at 2^64 on x86_64. -/
def USIZE_MOD : Nat := 2 ^ 64

/-- isize::MAX as usize, the bound Layout::from_size_align enforces. -/
def ISIZE_MAX : Nat := 2 ^ 63 - 1

/-- AtomicUsize::fetch_add with wrapping usize semantics. -/
def fetchAdd (a x : Nat) : Nat := (a + x) % USIZE_MOD

/-- AtomicUsize::fetch_sub with wrapping usize semantics. -/
def fetchSub (a x : Nat) : Nat := (a + (USIZE_MOD - x % USIZE_MOD)) % USIZE_MOD

/-- usize::is_power_of_two, Rust formula: n != 0 && n & (n - 1) == 0. -/
def isPow2 (n : Nat) : Bool := n != 0 && n &&& (n - 1) == 0

/-- std::alloc::Layout: a size and an alignment in bytes. -/
structure Layout where
  size : Nat
  align : Nat
deriving DecidableEq

/-- Layout::from_size_align: requires align to be a power of two and
    size <= isize::MAX - (align - 1). -/
def Layout.from_size_align (size align : Nat) : Option Layout :=
  if isPow2 align = true ∧ size ≤ ISIZE_MAX - (align - 1) then some ⟨size, align⟩
  else none

/-- Layout::padding_needed_for. Rust computes
    (size + align - 1) & !(align - 1) - size with wrapping ops; for the
    power-of-two align every call site supplies, that bit trick is exactly
    rounding size up to the next multiple of align, which is how we write it. -/
def Layout.padding_needed_for (l : Layout) (align : Nat) : Nat :=
  (l.size + align - 1) / align * align - l.size

/-- Layout::extend: place next behind self at next's alignment; returns the
    combined layout and the byte offset of next inside it. Nat addition cannot
    wrap; a Rust checked_add failure (sum above usize::MAX) would also fail the
    from_size_align size bound, so the embeddings agree on the failure set. -/
def Layout.extend (l next : Layout) : Option (Layout × Nat) :=
  match Layout.from_size_align (l.size + l.padding_needed_for next.align + next.size)
      (max l.align next.align) with
  | some layout => some (layout, l.size + l.padding_needed_for next.align)
  | none => none

/-- MemoryTag of alloc.rs (debug build): magic, size, align, scope, base.
    scope (ash SystemAllocationScope, a newtype over i32) and base (a raw
    pointer) are both modelled as Nat. -/
structure MemoryTag where
  magic : Nat
  size : Nat
  align : Nat
  scope : Nat
  base : Nat
deriving DecidableEq

/-- size_of::<MemoryTag>() on x86_64 with debug_assertions: four 8-byte
    fields plus the 4-byte scope, rounded up to the repr(align(8)) alignment. -/
def MT_SIZE : Nat := 40

/-- align_of::<MemoryTag>(): fixed by repr(align(8)). -/
def MT_ALIGN : Nat := 8

/-- MT_LAYOUT constant: Layout::new::<MemoryTag>(). -/
def MT_LAYOUT : Layout := ⟨MT_SIZE, MT_ALIGN⟩

/-- MT_MAGIC constant: 0x7E_E7_AB_BA_CA_FE_B0_0B. -/
def MT_MAGIC : Nat := 0x7EE7ABBACAFEB00B

/-- MemoryTag::layout: Layout::from_size_align_unchecked(self.size, self.align). -/
def MemoryTag.layout (t : MemoryTag) : Layout := ⟨t.size, t.align⟩

/-- make_layout: MT_LAYOUT.extend(Layout::from_size_align(size,
    align.max(align_of::<MemoryTag>()))?), returning the combined layout and
    the payload offset, or none on any Layout error. -/
def make_layout (size align : Nat) : Option (Layout × Nat) :=
  match Layout.from_size_align size (max align MT_ALIGN) with
  | some payload => MT_LAYOUT.extend payload
  | none => none

/-- Wrapping subtraction on 64-bit addresses, for byte_offset with a negative
    offset. -/
def wrapSub (p n : Nat) : Nat := (p + (USIZE_MOD - n % USIZE_MOD)) % USIZE_MOD

/-- Address of the MemoryTag of payload pointer p, as computed by
    as_tag_and_block: p.byte_offset(-(size_of::<MemoryTag>() as isize)). -/
def tagAddr (p : Nat) : Nat := wrapSub p MT_SIZE

/-- Host memory as the adapter reads it: which addresses hold a MemoryTag. -/
def Heap : Type := Nat → Option MemoryTag

/-- as_tag_and_block: read the MemoryTag stored at p - size_of::<MemoryTag>()
    and return it with the block pointer. none models the undefined behaviour
    of reading an address where no tag was ever written. -/
def as_tag_and_block (heap : Heap) (p : Nat) : Option (MemoryTag × Nat) :=
  match heap (tagAddr p) with
  | some tag => some (tag, p)
  | none => none

/-- Outcome of the allocation or reallocation callback: a returned payload
    pointer together with the MemoryTag the callback wrote at ptr - MT_SIZE
    and the final allocated counter, a null return carrying the final counter,
    or a crash (a failed assert, or undefined behaviour from a wild read). -/
inductive VkOutcome where
  | ok (ptr : Nat) (tag : MemoryTag) (counter : Nat)
  | fail (counter : Nat)
  | crash
deriving DecidableEq

/-- vk_alloc (alloc.rs lines 113-152). Mirrors the source order: make_layout,
    then fetch_add of the combined size layout.0.size() onto the allocated
    counter, then the underlying allocate call (null return on its failure,
    with no rollback of the counter), then the tag write and the payload
    pointer return. -/
def vk_alloc (allocated size align scope : Nat) (alloc : Layout → Option Nat) :
    VkOutcome :=
  match make_layout size align with
  | none => .fail allocated
  | some (layout, offset) =>
    let allocated1 := fetchAdd allocated layout.size
    match alloc layout with
    | none => .fail allocated1
    | some base =>
      .ok (base + offset)
        { magic := MT_MAGIC, size := layout.size, align := layout.align,
          scope := scope, base := base } allocated1

/-- vk_realloc (alloc.rs lines 154-241). Mirrors the source order: make_layout
    (null on failure), assert!(validate_alloc(original)) which reads the tag
    at original - MT_SIZE (crash on a wild read or a magic mismatch), the
    grow-or-shrink classification old_layout.size() < layout.0.size(), the
    underlying grow or shrink call, the counter fetch_add/fetch_sub of the
    combined-size difference performed before the failure check, then either
    the null return or the fresh tag write and payload pointer return. -/
def vk_realloc (allocated : Nat) (heap : Heap) (original size align scope : Nat)
    (growFn shrinkFn : Nat → Layout → Layout → Option Nat) : VkOutcome :=
  match make_layout size align with
  | none => .fail allocated
  | some (layout, offset) =>
    match as_tag_and_block heap original with
    | none => .crash
    | some (tag, _) =>
      if tag.magic ≠ MT_MAGIC then .crash
      else
        let old_layout := tag.layout
        if old_layout.size < layout.size then
          let new_alloc := growFn tag.base old_layout layout
          let allocated1 := fetchAdd allocated (layout.size - old_layout.size)
          match new_alloc with
          | none => .fail allocated1
          | some base =>
            .ok (base + offset)
              { magic := MT_MAGIC, size := layout.size, align := layout.align,
                scope := scope, base := base } allocated1
        else
          let new_alloc := shrinkFn tag.base old_layout layout
          let allocated1 := fetchSub allocated (old_layout.size - layout.size)
          match new_alloc with
          | none => .fail allocated1
          | some base =>
            .ok (base + offset)
              { magic := MT_MAGIC, size := layout.size, align := layout.align,
                scope := scope, base := base } allocated1

/-- Observable effect of a completed vk_free: the base pointer and the layout
    handed to the underlying deallocate, and the counter after the fetch_sub. -/
structure FreeEffect where
  deallocBase : Nat
  deallocLayout : Layout
  counter : Nat
deriving DecidableEq

/-- vk_free (alloc.rs lines 243-264). There is no null check anywhere in the
    function: assert!(validate_alloc(original)) and the tag recovery both read
    the MemoryTag at original - MT_SIZE unconditionally, so a pointer whose
    tag address holds no tag is a crash (undefined behaviour); otherwise the
    underlying deallocate is called with tag.base and tag.layout() and the
    counter is fetch_subbed by tag.layout().size(). -/
def vk_free (allocated : Nat) (heap : Heap) (original : Nat) :
    Option FreeEffect :=
  match as_tag_and_block heap original with
  | none => none
  | some (tag, _) =>
    if tag.magic ≠ MT_MAGIC then none
    else
      some { deallocBase := tag.base, deallocLayout := tag.layout,
             counter := fetchSub allocated tag.layout.size }

/-- Drive vk_alloc over a list of requests (size, align, base address the
    underlying allocator hands back), threading the allocated counter from 0
    onward; collects the payload/tag pairs of the successful calls in order.
    vk_alloc never yields crash, so that branch is dead. -/
def runAllocs : Nat → List (Nat × Nat × Nat) → Nat × List (Nat × MemoryTag)
  | c, [] => (c, [])
  | c, r :: rest =>
    match vk_alloc c r.1 r.2.1 0 (fun _ => some r.2.2) with
    | .ok p tag c1 =>
      let t := runAllocs c1 rest
      (t.1, (p, tag) :: t.2)
    | .fail c1 => runAllocs c1 rest
    | .crash => (c, [])

/-- One free step: call vk_free on payload pt.1 presenting it a heap that
    holds pt's tag (in particular at payload - MT_SIZE, the only address
    vk_free reads); the resulting counter, or none if the free crashes. -/
def freeOne (c : Nat) (pt : Nat × MemoryTag) : Option Nat :=
  (vk_free c (fun _ => some pt.2) pt.1).map (fun e => e.counter)

/-- Free every collected payload through vk_free, threading the counter; the
    final counter, or none if any free crashes. -/
def freeAll (c : Nat) (l : List (Nat × MemoryTag)) : Option Nat :=
  l.foldl (fun acc pt => acc.bind (fun c1 => freeOne c1 pt)) (some c)

/-- Sum of the combined sizes make_layout assigns to a request list (a request
    it rejects contributes 0; such a request also leaves the counter alone). -/
def totalCombined : List (Nat × Nat × Nat) → Nat
  | [] => 0
  | r :: rest =>
    (match make_layout r.1 r.2.1 with
     | some la => la.1.size
     | none => 0) + totalCombined rest

/-- Sum of the sizes recorded in a list of collected tags. -/
def tagSum : List (Nat × MemoryTag) → Nat
  | [] => 0
  | pt :: rest => pt.2.size + tagSum rest

/-! Arithmetic helper lemmas. -/

lemma usize_mod_eq : USIZE_MOD = 18446744073709551616 := by norm_num [USIZE_MOD]

lemma isize_max_eq : ISIZE_MAX = 9223372036854775807 := by norm_num [ISIZE_MAX]

lemma fetchAdd_eq {a x : Nat} (h : a + x < USIZE_MOD) : fetchAdd a x = a + x := by
  rw [fetchAdd]
  exact Nat.mod_eq_of_lt h

lemma fetchSub_eq {a x : Nat} (hx : x ≤ a) (ha : a < USIZE_MOD) :
    fetchSub a x = a - x := by
  rw [fetchSub, usize_mod_eq]
  rw [usize_mod_eq] at ha
  omega

lemma isPow2_iff (n : Nat) : isPow2 n = true ↔ ∃ k, n = 2 ^ k := by
  constructor
  · intro h
    have hn0 : n ≠ 0 := by
      intro h0
      subst h0
      simp [isPow2] at h
    have hland : n &&& (n - 1) = 0 := by
      simpa [isPow2, hn0] using h
    refine ⟨n.log2, ?_⟩
    have h1 : 2 ^ n.log2 ≤ n := Nat.log2_self_le hn0
    have h2 : n < 2 ^ (n.log2 + 1) := (Nat.log2_lt hn0).mp (Nat.lt_succ_self _)
    have hps : 2 ^ (n.log2 + 1) = 2 * 2 ^ n.log2 := by
      rw [pow_succ]
      ring
    by_contra hne
    have hlt : 2 ^ n.log2 < n := lt_of_le_of_ne h1 (fun hh => hne hh.symm)
    have hd1 : n / 2 ^ n.log2 = 1 :=
      Nat.div_eq_of_lt_le (by omega) (by omega)
    have hd2 : (n - 1) / 2 ^ n.log2 = 1 :=
      Nat.div_eq_of_lt_le (by omega) (by omega)
    have htb1 : n.testBit n.log2 = true := by
      rw [Nat.testBit_to_div_mod, hd1]
      norm_num
    have htb2 : (n - 1).testBit n.log2 = true := by
      rw [Nat.testBit_to_div_mod, hd2]
      norm_num
    have := Nat.testBit_land n (n - 1) n.log2
    rw [hland, htb1, htb2, Nat.zero_testBit] at this
    simp at this
  · rintro ⟨k, rfl⟩
    have hp : (2 : Nat) ^ k ≠ 0 := Nat.pos_iff_ne_zero.mp (Nat.two_pow_pos k)
    have hland : (2 ^ k) &&& (2 ^ k - 1) = 0 := by
      apply Nat.eq_of_testBit_eq
      intro i
      rw [Nat.testBit_land, Nat.testBit_two_pow, Nat.testBit_two_pow_sub_one,
        Nat.zero_testBit]
      by_cases hik : k = i
      · subst hik
        simp
      · simp [hik]
    simp [isPow2, hp, hland]

lemma pow2_dvd {a b : Nat} (ha : isPow2 a = true) (hb : isPow2 b = true)
    (hab : a ≤ b) : a ∣ b := by
  obtain ⟨i, rfl⟩ := (isPow2_iff a).mp ha
  obtain ⟨j, rfl⟩ := (isPow2_iff b).mp hb
  exact pow_dvd_pow 2 ((Nat.pow_le_pow_iff_right (by norm_num)).mp hab)

/-- Payload offset inside the combined layout for effective payload alignment
    m: MT_SIZE rounded up to the next multiple of m, which is what
    Layout::extend computes for MT_LAYOUT and a payload layout of align m. -/
def payOff (m : Nat) : Nat := (MT_SIZE + m - 1) / m * m

lemma payOff_ge {m : Nat} (hm : 0 < m) : MT_SIZE ≤ payOff m := by
  have h := Nat.lt_div_mul_add (a := MT_SIZE + m - 1) hm
  unfold payOff
  omega

lemma payOff_dvd (m : Nat) : m ∣ payOff m := by
  unfold payOff
  exact dvd_mul_left m ((MT_SIZE + m - 1) / m)

lemma payOff_min {m o : Nat} (hm : 0 < m) (ho : MT_SIZE ≤ o) (hd : m ∣ o) :
    payOff m ≤ o := by
  obtain ⟨t, rfl⟩ := hd
  have hq : (MT_SIZE + m - 1) / m ≤ t := by
    rw [Nat.div_le_iff_le_mul_add_pred hm]
    have : MT_SIZE ≤ m * t := ho
    omega
  calc payOff m = (MT_SIZE + m - 1) / m * m := rfl
    _ ≤ t * m := Nat.mul_le_mul_right m hq
    _ = m * t := Nat.mul_comm t m

/-- make_layout, solved: it succeeds exactly when the effective payload
    alignment m = max(align, MT_ALIGN) is a power of two and the combined size
    payOff m + size stays within the isize::MAX bound, and then returns the
    combined layout of size payOff m + size and align m, with payload offset
    payOff m. -/
lemma make_layout_eq (s a : Nat) :
    make_layout s a =
      if isPow2 (max a MT_ALIGN) = true ∧
         payOff (max a MT_ALIGN) + s ≤ ISIZE_MAX - (max a MT_ALIGN - 1) then
        some (⟨payOff (max a MT_ALIGN) + s, max a MT_ALIGN⟩, payOff (max a MT_ALIGN))
      else none := by
  have hm8 : MT_ALIGN ≤ max a MT_ALIGN := Nat.le_max_right a MT_ALIGN
  have hm0 : 0 < max a MT_ALIGN := by
    have : (0 : Nat) < MT_ALIGN := by norm_num [MT_ALIGN]
    omega
  have hup := payOff_ge hm0
  have hoff : MT_SIZE + ((MT_SIZE + max a MT_ALIGN - 1) / (max a MT_ALIGN) *
      (max a MT_ALIGN) - MT_SIZE) = payOff (max a MT_ALIGN) := by
    unfold payOff at hup ⊢
    omega
  have hmx : max MT_ALIGN (max a MT_ALIGN) = max a MT_ALIGN := Nat.max_eq_right hm8
  by_cases hp : isPow2 (max a MT_ALIGN) = true
  · by_cases h1 : s ≤ ISIZE_MAX - (max a MT_ALIGN - 1)
    · by_cases h2 : payOff (max a MT_ALIGN) + s ≤ ISIZE_MAX - (max a MT_ALIGN - 1)
      · simp [make_layout, Layout.extend, Layout.padding_needed_for,
          Layout.from_size_align, MT_LAYOUT, hp, h1, h2, hoff, hmx]
      · simp [make_layout, Layout.extend, Layout.padding_needed_for,
          Layout.from_size_align, MT_LAYOUT, hp, h1, h2, hoff, hmx]
    · have h2 : ¬(payOff (max a MT_ALIGN) + s ≤ ISIZE_MAX - (max a MT_ALIGN - 1)) := by
        omega
      simp [make_layout, Layout.from_size_align, hp, h1, h2]
  · simp [make_layout, Layout.from_size_align, hp]

/-- What a successful make_layout tells about its result. -/
lemma make_layout_some {s a : Nat} {L : Layout} {off : Nat}
    (h : make_layout s a = some (L, off)) :
    isPow2 (max a MT_ALIGN) = true ∧ off = payOff (max a MT_ALIGN) ∧
      L.size = off + s ∧ L.align = max a MT_ALIGN := by
  rw [make_layout_eq] at h
  split at h
  · rename_i hc
    rw [Option.some_inj, Prod.mk.injEq] at h
    obtain ⟨hL, hoff⟩ := h
    subst hoff
    refine ⟨hc.1, rfl, ?_, ?_⟩
    · rw [← hL]
    · rw [← hL]
  · exact absurd h (by simp)

/-! Operation-level helper lemmas. -/

lemma vk_alloc_ok {size align : Nat} {L : Layout} {off : Nat}
    (c scope : Nat) {f : Layout → Option Nat} {b : Nat}
    (hmk : make_layout size align = some (L, off)) (hf : f L = some b) :
    vk_alloc c size align scope f =
      .ok (b + off) ⟨MT_MAGIC, L.size, L.align, scope, b⟩ (fetchAdd c L.size) := by
  simp [vk_alloc, hmk, hf]

lemma vk_alloc_fail_layout {size align : Nat} (c scope : Nat)
    {f : Layout → Option Nat} (hmk : make_layout size align = none) :
    vk_alloc c size align scope f = .fail c := by
  simp [vk_alloc, hmk]

lemma vk_alloc_fail_under {size align : Nat} {L : Layout} {off : Nat}
    (c scope : Nat) {f : Layout → Option Nat}
    (hmk : make_layout size align = some (L, off)) (hf : f L = none) :
    vk_alloc c size align scope f = .fail (fetchAdd c L.size) := by
  simp [vk_alloc, hmk, hf]

lemma vk_free_ok {heap : Heap} {p : Nat} {tag : MemoryTag} (c : Nat)
    (htag : heap (tagAddr p) = some tag) (hmagic : tag.magic = MT_MAGIC) :
    vk_free c heap p =
      some ⟨tag.base, tag.layout, fetchSub c tag.size⟩ := by
  simp [vk_free, as_tag_and_block, htag, hmagic, MemoryTag.layout]

lemma vk_realloc_ok {heap : Heap} {original size align : Nat} {L : Layout}
    {off : Nat} {tag : MemoryTag} (c scope : Nat)
    {growFn shrinkFn : Nat → Layout → Layout → Option Nat} {b : Nat}
    (hmk : make_layout size align = some (L, off))
    (htag : heap (tagAddr original) = some tag)
    (hmagic : tag.magic = MT_MAGIC)
    (hgs : if tag.size < L.size then growFn tag.base tag.layout L = some b
           else shrinkFn tag.base tag.layout L = some b) :
    vk_realloc c heap original size align scope growFn shrinkFn =
      .ok (b + off) ⟨MT_MAGIC, L.size, L.align, scope, b⟩
        (if tag.size < L.size then fetchAdd c (L.size - tag.size)
         else fetchSub c (tag.size - L.size)) := by
  by_cases hlt : tag.size < L.size
  · rw [if_pos hlt] at hgs
    simp only [MemoryTag.layout] at hgs
    simp [vk_realloc, as_tag_and_block, hmk, htag, hmagic, MemoryTag.layout, hlt, hgs]
  · rw [if_neg hlt] at hgs
    simp only [MemoryTag.layout] at hgs
    simp [vk_realloc, as_tag_and_block, hmk, htag, hmagic, MemoryTag.layout, hlt, hgs]

lemma vk_realloc_fail_under {heap : Heap} {original size align : Nat} {L : Layout}
    {off : Nat} {tag : MemoryTag} (c scope : Nat)
    {growFn shrinkFn : Nat → Layout → Layout → Option Nat}
    (hmk : make_layout size align = some (L, off))
    (htag : heap (tagAddr original) = some tag)
    (hmagic : tag.magic = MT_MAGIC)
    (hgs : if tag.size < L.size then growFn tag.base tag.layout L = none
           else shrinkFn tag.base tag.layout L = none) :
    vk_realloc c heap original size align scope growFn shrinkFn =
      .fail (if tag.size < L.size then fetchAdd c (L.size - tag.size)
             else fetchSub c (tag.size - L.size)) := by
  by_cases hlt : tag.size < L.size
  · rw [if_pos hlt] at hgs
    simp only [MemoryTag.layout] at hgs
    simp [vk_realloc, as_tag_and_block, hmk, htag, hmagic, MemoryTag.layout, hlt, hgs]
  · rw [if_neg hlt] at hgs
    simp only [MemoryTag.layout] at hgs
    simp [vk_realloc, as_tag_and_block, hmk, htag, hmagic, MemoryTag.layout, hlt, hgs]

/-! Run-level helper lemmas for the counter accounting over many operations. -/

lemma runAllocs_spec (reqs : List (Nat × Nat × Nat)) :
    ∀ c, (∀ r ∈ reqs, (make_layout r.1 r.2.1).isSome = true) →
      c + totalCombined reqs < USIZE_MOD →
      (runAllocs c reqs).1 = c + totalCombined reqs ∧
      (∀ pt ∈ (runAllocs c reqs).2, pt.2.magic = MT_MAGIC) ∧
      tagSum (runAllocs c reqs).2 = totalCombined reqs := by
  induction reqs with
  | nil =>
    intro c _ _
    simp [runAllocs, totalCombined, tagSum]
  | cons r rest ih =>
    intro c hok hlt
    obtain ⟨⟨L, off⟩, hmk⟩ :=
      Option.isSome_iff_exists.mp (hok r (List.mem_cons_self r rest))
    have hrest : ∀ q ∈ rest, (make_layout q.1 q.2.1).isSome = true :=
      fun q hq => hok q (List.mem_cons_of_mem r hq)
    have htc : totalCombined (r :: rest) = L.size + totalCombined rest := by
      simp [totalCombined, hmk]
    have hadd : fetchAdd c L.size = c + L.size :=
      fetchAdd_eq (by omega)
    have hrun : runAllocs c (r :: rest) =
        ((runAllocs (c + L.size) rest).1,
          (r.2.2 + off, ⟨MT_MAGIC, L.size, L.align, 0, r.2.2⟩) ::
            (runAllocs (c + L.size) rest).2) := by
      rw [runAllocs, vk_alloc_ok c 0 hmk rfl, hadd]
    have hih := ih (c + L.size) hrest (by omega)
    refine ⟨?_, ?_, ?_⟩
    · rw [hrun]
      simp only
      omega
    · rw [hrun]
      intro pt hpt
      rcases List.mem_cons.mp hpt with h | h
      · rw [h]
      · exact hih.2.1 pt h
    · rw [hrun]
      simp only [tagSum]
      omega

lemma freeAll_spec (l : List (Nat × MemoryTag)) :
    ∀ c, (∀ pt ∈ l, pt.2.magic = MT_MAGIC) → tagSum l ≤ c → c < USIZE_MOD →
      freeAll c l = some (c - tagSum l) := by
  induction l with
  | nil =>
    intro c _ _ _
    simp [freeAll, tagSum]
  | cons pt rest ih =>
    intro c hmg hle hlt
    have hsum : pt.2.size + tagSum rest = tagSum (pt :: rest) := rfl
    have hm : pt.2.magic = MT_MAGIC := hmg pt (List.mem_cons_self pt rest)
    have hfree : vk_free c (fun _ => some pt.2) pt.1 =
        some ⟨pt.2.base, pt.2.layout, fetchSub c pt.2.size⟩ :=
      vk_free_ok c rfl hm
    have hcs : fetchSub c pt.2.size = c - pt.2.size :=
      fetchSub_eq (by omega) hlt
    have hrest := ih (c - pt.2.size)
      (fun q hq => hmg q (List.mem_cons_of_mem pt hq)) (by omega) (by omega)
    have hone : freeOne c pt = some (c - pt.2.size) := by
      rw [freeOne, hfree, hcs]
      rfl
    have hstep : freeAll c (pt :: rest) = freeAll (c - pt.2.size) rest := by
      simp [freeAll, List.foldl, hone]
    rw [hstep, hrest]
    congr 1
    omega

/-! Claim theorems. -/

/-- Claim C1 (code bug in vk_free): the free callback performs no null check;
    called with a null original it unconditionally reads the MemoryTag at
    address 0 - size_of::<MemoryTag>(), which holds no tag, so the call is
    undefined behaviour (a crash in this model) instead of the no-op the
    external API contract requires. -/
theorem c1_free_null_crashes : ∀ c : Nat, vk_free c (fun _ => none) 0 = none :=
  fun _ => rfl

/-- Claim C2, counterexample: a successful allocation of payload size 4 with
    align 1 raises the allocated counter from 0 to 44 (the combined
    header+payload size), not to 0 + 4 as the claim states. -/
theorem c2_counterexample :
    vk_alloc 0 4 1 0 (fun _ => some 64) = .ok 104 ⟨MT_MAGIC, 44, 8, 0, 64⟩ 44 ∧
    (44 : Nat) ≠ 0 + 4 := by
  decide

/-- Claim C2 (amended): every successful allocation adds the combined
    header+payload size (layout.0.size()) to the allocated counter, so after N
    successful allocations from counter 0 the counter equals the sum of the
    combined sizes, and freeing all the returned payloads brings it back to 0. -/
theorem c2_allocated_counter_combined (reqs : List (Nat × Nat × Nat))
    (hok : ∀ r ∈ reqs, (make_layout r.1 r.2.1).isSome = true)
    (hlt : totalCombined reqs < USIZE_MOD) :
    (runAllocs 0 reqs).1 = totalCombined reqs ∧
    freeAll (runAllocs 0 reqs).1 (runAllocs 0 reqs).2 = some 0 := by
  obtain ⟨hc, hmg, hts⟩ := runAllocs_spec reqs 0 hok (by omega)
  have hc0 : (runAllocs 0 reqs).1 = totalCombined reqs := by omega
  refine ⟨hc0, ?_⟩
  have hf := freeAll_spec (runAllocs 0 reqs).2 (runAllocs 0 reqs).1 hmg
    (by omega) (by omega)
  rw [hf]
  congr 1
  omega

/-- Claim C2 witness: two allocations of payload sizes 4 and 8 (combined sizes
    44 and 56) leave the counter at their sum, and freeing both returns it
    to 0. -/
theorem c2_witness :
    (runAllocs 0 [(4, 1, 64), (8, 16, 256)]).1 =
      totalCombined [(4, 1, 64), (8, 16, 256)] ∧
    freeAll (runAllocs 0 [(4, 1, 64), (8, 16, 256)]).1
      (runAllocs 0 [(4, 1, 64), (8, 16, 256)]).2 = some 0 :=
  c2_allocated_counter_combined _ (by decide) (by decide)

/-- Claim C3 (code bug in vk_alloc): the counter is fetch_added with the
    combined size before the underlying allocator is consulted and is not
    rolled back, so a failing underlying allocation returns null but leaves
    the counter raised from 0 to 44 instead of unchanged. -/
theorem c3_alloc_fail_mutates_counter :
    vk_alloc 0 4 1 0 (fun _ => none) = .fail 44 ∧ (44 : Nat) ≠ 0 := by
  decide

/-- Claim C4 (code bug in vk_realloc): growing a live block of combined size
    44 to combined size 56 with a failing underlying grow returns null, and
    the original tag is indeed left untouched, but the counter was already
    fetch_added with the difference 12 before the failure check, moving it
    from 44 to 56 instead of leaving it unchanged. -/
theorem c4_realloc_fail_mutates_counter :
    vk_realloc 44 (fun _ => some ⟨MT_MAGIC, 44, 8, 0, 64⟩) 104 8 16 0
      (fun _ _ _ => none) (fun _ _ _ => none) = .fail 56 ∧ (56 : Nat) ≠ 44 := by
  decide

/-- Claim C5, counterexample: an allocation requesting payload size 4 and
    align 1 writes a tag whose size field is the combined size 44 and whose
    align field is the effective alignment 8, not the requested 4 and 1. -/
theorem c5_counterexample :
    vk_alloc 0 4 1 0 (fun _ => some 64) = .ok 104 ⟨MT_MAGIC, 44, 8, 0, 64⟩ 44 ∧
    (44 : Nat) ≠ 4 ∧ (8 : Nat) ≠ 1 := by
  decide

/-- Claim C5 (amended): the tag written by a successful allocation records the
    combined layout, i.e. size = payload offset + requested size and
    align = max(requested align, align_of::<MemoryTag>()), together with a
    valid magic sentinel and the combined-allocation base. -/
theorem c5_tag_records_combined {size align : Nat} {L : Layout} {off : Nat}
    (c scope : Nat) {f : Layout → Option Nat} {b : Nat}
    (hmk : make_layout size align = some (L, off)) (hf : f L = some b) :
    vk_alloc c size align scope f =
      .ok (b + off) ⟨MT_MAGIC, L.size, L.align, scope, b⟩ (fetchAdd c L.size) ∧
    L.size = off + size ∧ L.align = max align MT_ALIGN := by
  obtain ⟨-, -, hsize, halign⟩ := make_layout_some hmk
  exact ⟨vk_alloc_ok c scope hmk hf, hsize, halign⟩

/-- Claim C5 witness: the amended statement at the request (size 4, align 1)
    with underlying base 64. -/
theorem c5_witness :
    vk_alloc 0 4 1 0 (fun _ => some 64) = .ok 104 ⟨MT_MAGIC, 44, 8, 0, 64⟩ 44 ∧
    (44 : Nat) = 40 + 4 ∧ (8 : Nat) = max 1 MT_ALIGN :=
  @c5_tag_records_combined 4 1 ⟨44, 8⟩ 40 0 0 (fun _ => some 64) 64
    (by decide) rfl

/-- Claim C6, counterexample: a block allocated for payload size 4 (combined
    44) reallocated to payload size 8 with align 16 (combined 56) moves the
    counter from 44 to 56, a delta of 12, not the claimed
    new_size - old_size = 8 - 4 = 4. -/
theorem c6_counterexample :
    vk_alloc 0 4 1 0 (fun _ => some 64) = .ok 104 ⟨MT_MAGIC, 44, 8, 0, 64⟩ 44 ∧
    vk_realloc 44 (fun _ => some ⟨MT_MAGIC, 44, 8, 0, 64⟩) 104 8 16 0
      (fun _ _ _ => some 256) (fun _ _ _ => none) =
      .ok 304 ⟨MT_MAGIC, 56, 16, 0, 256⟩ 56 ∧
    (56 : Nat) ≠ 44 + (8 - 4) := by
  decide

/-- Claim C6 (amended): a successful reallocation adjusts the counter by
    exactly the difference of the combined layout sizes: the new counter is
    the old one plus the new combined size minus the combined size recorded in
    the original tag (added when grown, subtracted when shrunk). -/
theorem c6_realloc_counter_delta {heap : Heap} {original size align : Nat}
    {L : Layout} {off : Nat} {tag : MemoryTag} (c scope : Nat)
    {growFn shrinkFn : Nat → Layout → Layout → Option Nat} {b : Nat}
    (hmk : make_layout size align = some (L, off))
    (htag : heap (tagAddr original) = some tag)
    (hmagic : tag.magic = MT_MAGIC)
    (hgs : if tag.size < L.size then growFn tag.base tag.layout L = some b
           else shrinkFn tag.base tag.layout L = some b)
    (hle : tag.size ≤ c) (hlt : c + L.size < USIZE_MOD) :
    vk_realloc c heap original size align scope growFn shrinkFn =
      .ok (b + off) ⟨MT_MAGIC, L.size, L.align, scope, b⟩
        (c + L.size - tag.size) := by
  rw [vk_realloc_ok c scope hmk htag hmagic hgs]
  by_cases h : tag.size < L.size
  · rw [if_pos h, fetchAdd_eq (by omega)]
    congr 1
    omega
  · rw [if_neg h, fetchSub_eq (by omega) (by omega)]
    congr 1
    omega

/-- Claim C6 witness: the amended statement on the grow from combined size 44
    to combined size 56. -/
theorem c6_witness :
    vk_realloc 44 (fun _ => some ⟨MT_MAGIC, 44, 8, 0, 64⟩) 104 8 16 0
      (fun _ _ _ => some 256) (fun _ _ _ => none) =
      .ok 304 ⟨MT_MAGIC, 56, 16, 0, 256⟩ (44 + 56 - 44) :=
  @c6_realloc_counter_delta (fun _ => some ⟨MT_MAGIC, 44, 8, 0, 64⟩) 104 8 16
    ⟨56, 16⟩ 48 ⟨MT_MAGIC, 44, 8, 0, 64⟩ 44 0
    (fun _ _ _ => some 256) (fun _ _ _ => none) 256
    (by decide) rfl rfl (by decide) (by decide) (by decide)

/-- Claim C7, counterexample: alignment 3 is not a power of two, yet the
    layout composer accepts it (the requested align is clamped to
    max(align, 8) before the power-of-two check), so failure is not exactly
    the claimed condition. -/
theorem c7_counterexample :
    (make_layout 4 3).isSome = true ∧ isPow2 3 = false := by
  decide

/-- Claim C7 (amended): the layout composer fails exactly when the effective
    alignment max(align, align_of::<MemoryTag>()) is not a power of two or
    the combined size payload-offset + size exceeds the isize::MAX-based
    bound; in particular the two cited requests, size usize::MAX with align 1
    and size 4 with align usize::MAX, make the allocation callback return
    null with the counter unchanged. -/
theorem c7_layout_failure_characterization :
    (∀ size align : Nat, make_layout size align = none ↔
      (isPow2 (max align MT_ALIGN) = false ∨
        ISIZE_MAX - (max align MT_ALIGN - 1) <
          payOff (max align MT_ALIGN) + size)) ∧
    (∀ c scope : Nat, ∀ f : Layout → Option Nat,
      vk_alloc c (USIZE_MOD - 1) 1 scope f = .fail c) ∧
    (∀ c scope : Nat, ∀ f : Layout → Option Nat,
      vk_alloc c 4 (USIZE_MOD - 1) scope f = .fail c) := by
  refine ⟨?_, ?_, ?_⟩
  · intro s a
    rw [make_layout_eq]
    constructor
    · intro h
      by_cases hc : isPow2 (max a MT_ALIGN) = true ∧
          payOff (max a MT_ALIGN) + s ≤ ISIZE_MAX - (max a MT_ALIGN - 1)
      · rw [if_pos hc] at h
        exact absurd h (by simp)
      · cases hpm : isPow2 (max a MT_ALIGN) with
        | false => exact Or.inl rfl
        | true =>
          refine Or.inr ?_
          by_contra hb
          exact hc ⟨hpm, by omega⟩
    · intro h
      rw [if_neg]
      rintro ⟨h1, h2⟩
      rcases h with h | h
      · rw [h1] at h
        cases h
      · omega
  · intro c scope f
    exact vk_alloc_fail_layout c scope (by decide)
  · intro c scope f
    exact vk_alloc_fail_layout c scope (by decide)

/-- Claim C8: for a power-of-two align and a composable layout, a successful
    allocation hands back a non-null pointer aligned to align, and the payload
    offset is the least offset at or past the tag size that satisfies both the
    requested align and the tag's own natural alignment. The underlying
    allocator is assumed to honour the combined layout: a non-null base
    aligned to the combined alignment. -/
theorem c8_alloc_alignment {size align : Nat} {L : Layout} {off : Nat}
    (c scope : Nat) {f : Layout → Option Nat} {b : Nat}
    (hpow : isPow2 align = true)
    (hmk : make_layout size align = some (L, off))
    (hf : f L = some b) (hb : b ≠ 0) (hba : L.align ∣ b) :
    vk_alloc c size align scope f =
      .ok (b + off) ⟨MT_MAGIC, L.size, L.align, scope, b⟩ (fetchAdd c L.size) ∧
    b + off ≠ 0 ∧ align ∣ (b + off) ∧
    MT_SIZE ≤ off ∧ align ∣ off ∧ MT_ALIGN ∣ off ∧
    ∀ o, MT_SIZE ≤ o → align ∣ o → MT_ALIGN ∣ o → off ≤ o := by
  obtain ⟨hpm, hoff, hsize, halign⟩ := make_layout_some hmk
  have h8 : isPow2 MT_ALIGN = true := by decide
  have hd_align_m : align ∣ max align MT_ALIGN := by
    rcases Nat.le_total align MT_ALIGN with h | h
    · rw [Nat.max_eq_right h]
      exact pow2_dvd hpow h8 h
    · rw [Nat.max_eq_left h]
  have hd_8_m : MT_ALIGN ∣ max align MT_ALIGN := by
    rcases Nat.le_total align MT_ALIGN with h | h
    · rw [Nat.max_eq_right h]
    · rw [Nat.max_eq_left h]
      exact pow2_dvd h8 hpow h
  have hm0 : 0 < max align MT_ALIGN := by
    have h1 : MT_ALIGN ≤ max align MT_ALIGN := Nat.le_max_right align MT_ALIGN
    have h2 : (0 : Nat) < MT_ALIGN := by norm_num [MT_ALIGN]
    omega
  have hoffdvd : max align MT_ALIGN ∣ off := hoff ▸ payOff_dvd _
  have hoffge : MT_SIZE ≤ off := hoff ▸ payOff_ge hm0
  refine ⟨vk_alloc_ok c scope hmk hf, by omega, ?_, hoffge,
    dvd_trans hd_align_m hoffdvd, dvd_trans hd_8_m hoffdvd, ?_⟩
  · have hmb : max align MT_ALIGN ∣ b := halign ▸ hba
    exact dvd_trans hd_align_m (Nat.dvd_add hmb hoffdvd)
  · intro o hosz hoa ho8
    have hmo : max align MT_ALIGN ∣ o := by
      rcases Nat.le_total align MT_ALIGN with h | h
      · rw [Nat.max_eq_right h]
        exact ho8
      · rw [Nat.max_eq_left h]
        exact hoa
    rw [hoff]
    exact payOff_min hm0 hosz hmo

/-- Claim C8 witness: request (size 4, align 16) with underlying base 32:
    payload pointer 80 is non-null and 16-aligned, and offset 48 is the least
    multiple of 16 and 8 at or past the 40-byte tag. -/
theorem c8_witness :
    vk_alloc 0 4 16 0 (fun _ => some 32) =
      .ok (32 + 48) ⟨MT_MAGIC, 52, 16, 0, 32⟩ (fetchAdd 0 52) ∧
    32 + 48 ≠ 0 ∧ 16 ∣ (32 + 48) ∧
    MT_SIZE ≤ 48 ∧ 16 ∣ 48 ∧ MT_ALIGN ∣ 48 ∧
    ∀ o, MT_SIZE ≤ o → 16 ∣ o → MT_ALIGN ∣ o → 48 ≤ o :=
  @c8_alloc_alignment 4 16 ⟨52, 16⟩ 48 0 0 (fun _ => some 32) 32
    (by decide) (by decide) rfl (by decide) (by decide)

/-- Claim C9: the base pointer and layout vk_free hands to the underlying
    deallocate are exactly the base returned by, and the combined layout
    requested from, the underlying allocator at the block's most recent
    successful allocation (first conjunct) or reallocation (second conjunct),
    as recorded in the block's tag. -/
theorem c9_dealloc_matches_tag :
    (∀ (c c2 size align scope : Nat) (f : Layout → Option Nat) (L : Layout)
        (off b : Nat) (heap : Heap) (p : Nat) (tag : MemoryTag) (c1 : Nat),
      make_layout size align = some (L, off) → f L = some b →
      vk_alloc c size align scope f = .ok p tag c1 →
      heap (tagAddr p) = some tag →
      vk_free c2 heap p = some ⟨b, L, fetchSub c2 L.size⟩) ∧
    (∀ (c c2 size align scope : Nat) (heap heap2 : Heap) (original : Nat)
        (growFn shrinkFn : Nat → Layout → Layout → Option Nat) (L : Layout)
        (off : Nat) (oldTag : MemoryTag) (b p : Nat) (tag : MemoryTag)
        (c1 : Nat),
      make_layout size align = some (L, off) →
      heap (tagAddr original) = some oldTag → oldTag.magic = MT_MAGIC →
      (if oldTag.size < L.size then growFn oldTag.base oldTag.layout L = some b
       else shrinkFn oldTag.base oldTag.layout L = some b) →
      vk_realloc c heap original size align scope growFn shrinkFn =
        .ok p tag c1 →
      heap2 (tagAddr p) = some tag →
      vk_free c2 heap2 p = some ⟨b, L, fetchSub c2 L.size⟩) := by
  constructor
  · intro c c2 size align scope f L off b heap p tag c1 hmk hf hok htag
    rw [vk_alloc_ok c scope hmk hf] at hok
    injection hok with hp htg hc1
    subst hp
    subst htg
    exact vk_free_ok c2 htag rfl
  · intro c c2 size align scope heap heap2 original growFn shrinkFn L off
      oldTag b p tag c1 hmk htag hmagic hgs hok htag2
    rw [vk_realloc_ok c scope hmk htag hmagic hgs] at hok
    injection hok with hp htg hc1
    subst hp
    subst htg
    exact vk_free_ok c2 htag2 rfl

/-- Claim C9 witness: freeing the block allocated at base 64 with combined
    layout (44, 8) deallocates (64, (44, 8)); freeing the block a grow
    reallocation moved to base 256 with combined layout (56, 16) deallocates
    (256, (56, 16)). -/
theorem c9_witness :
    vk_free 50 (fun _ => some ⟨MT_MAGIC, 44, 8, 0, 64⟩) 104 =
      some ⟨64, ⟨44, 8⟩, fetchSub 50 44⟩ ∧
    vk_free 60 (fun _ => some ⟨MT_MAGIC, 56, 16, 0, 256⟩) 304 =
      some ⟨256, ⟨56, 16⟩, fetchSub 60 56⟩ := by
  constructor
  · exact c9_dealloc_matches_tag.1 0 50 4 1 0 (fun _ => some 64) ⟨44, 8⟩ 40 64
      (fun _ => some ⟨MT_MAGIC, 44, 8, 0, 64⟩) 104 ⟨MT_MAGIC, 44, 8, 0, 64⟩ 44
      (by decide) rfl (by decide) rfl
  · exact c9_dealloc_matches_tag.2 44 60 8 16 0
      (fun _ => some ⟨MT_MAGIC, 44, 8, 0, 64⟩)
      (fun _ => some ⟨MT_MAGIC, 56, 16, 0, 256⟩) 104
      (fun _ _ _ => some 256) (fun _ _ _ => none) ⟨56, 16⟩ 48
      ⟨MT_MAGIC, 44, 8, 0, 64⟩ 256 304 ⟨MT_MAGIC, 56, 16, 0, 256⟩ 56
      (by decide) rfl rfl (by decide) (by decide) rfl

/-- Claim C10: whenever the layout composer succeeds, the payload offset is at
    least size_of::<MemoryTag>() and the combined size covers offset plus the
    requested payload, so the tag written at payload minus MT_SIZE and the
    payload itself both lie inside the combined allocation. -/
theorem c10_header_payload_in_bounds {size align : Nat} {L : Layout}
    {off : Nat} (hmk : make_layout size align = some (L, off)) :
    MT_SIZE ≤ off ∧ off + size ≤ L.size := by
  obtain ⟨-, hoff, hsize, -⟩ := make_layout_some hmk
  have hm0 : 0 < max align MT_ALIGN := by
    have h1 : MT_ALIGN ≤ max align MT_ALIGN := Nat.le_max_right align MT_ALIGN
    have h2 : (0 : Nat) < MT_ALIGN := by norm_num [MT_ALIGN]
    omega
  have hoffge : MT_SIZE ≤ off := hoff ▸ payOff_ge hm0
  exact ⟨hoffge, by omega⟩

/-- Claim C10 witness: the request (size 4, align 1) composes to offset 40 and
    combined size 44, with the 40-byte tag and the 4-byte payload in bounds. -/
theorem c10_witness : MT_SIZE ≤ 40 ∧ 40 + 4 ≤ (44 : Nat) :=
  c10_header_payload_in_bounds (by decide : make_layout 4 1 = some (⟨44, 8⟩, 40))

end Crowbar
